import Mathlib

/-!
# reg_helper: typed accessor over a registry key

A shallow embedding of `include/reg_helper/reg_helper.hpp`.

* A `char` is a `Byte`; a `std::string` is the list of its bytes (`Str`), which
  may contain NUL bytes; `c_str()` is that list followed by one NUL.
* A value of a fixed-size type `T` is the list of the `sizeof(T)` bytes of its
  object representation.
* The registry functions of the platform (`RegOpenKeyExA`, `RegGetValueA`,
  `RegSetKeyValueA`) are not part of the header.  Every member function takes the
  platform function it calls as an argument and threads the state `σ` of the
  store through the call, so the theorems quantify over every behaviour of the
  store.  `Registry` is a reference store used for witnesses and for the
  statements that speak about what is stored.
* A `std::size_t` is a natural number: the strings handed to a call are held in
  memory together, so the sums of their sizes do not wrap.  A `DWORD` has 32
  bits: where the code hands a `std::size_t` computed at run time to the `DWORD`
  byte count of `RegSetKeyValueA`, the count is reduced with `toDWORD`.
  `sizeof (T)` of a `T` passed by value is below `2 ^ 32` and is handed over as
  it is.
* The loops are run with fuel; the fuel given is never exhausted
  (`get_value_loop_fuel_suffices`, `set_value_buffer_eq`).
* Undefined behaviour of the C++ code (reading or writing outside a buffer,
  dereferencing an iterator past the end) is an explicit `Fault`.
-/

namespace RegHelper

/-- One `char`. -/
abbrev Byte := Fin 256

/-- The bytes of a `std::string` (terminator not included). -/
abbrev Str := List Byte

/-- A registry handle (`HKEY`). -/
abbrev HKEY := Nat

/-- A status code of the registry functions (`LSTATUS`). -/
abbrev LSTATUS := Nat

/-- An access mask (`REGSAM`). -/
abbrev REGSAM := Nat

/-- Modelled from the spec: the success status of the store (`ERROR_SUCCESS` of
the platform header, which is not under src/). -/
def ERROR_SUCCESS : LSTATUS := 0

/-- Modelled from the spec: the status of the store for a missing key or value
(`ERROR_FILE_NOT_FOUND` of the platform header). -/
def ERROR_FILE_NOT_FOUND : LSTATUS := 2

/-- Modelled from the spec: the status of the store for insufficient access
rights (`ERROR_ACCESS_DENIED` of the platform header). -/
def ERROR_ACCESS_DENIED : LSTATUS := 5

/-- Modelled from the spec: the status of the store when the caller's buffer is
smaller than the stored value (`ERROR_MORE_DATA` of the platform header). -/
def ERROR_MORE_DATA : LSTATUS := 234

/-- Modelled from the spec: the status of the store when the stored type is not
in the expected type mask (`ERROR_UNSUPPORTED_TYPE` of the platform header). -/
def ERROR_UNSUPPORTED_TYPE : LSTATUS := 1630

/-- Modelled from the spec: the `text` type tag (`REG_SZ` of the platform header). -/
def REG_SZ : Nat := 1

/-- Modelled from the spec: the `fixed-binary` type tag (`REG_BINARY`). -/
def REG_BINARY : Nat := 3

/-- Modelled from the spec: the `4-byte-integer` type tag (`REG_DWORD`). -/
def REG_DWORD : Nat := 4

/-- Modelled from the spec: the `multi-text` type tag (`REG_MULTI_SZ`). -/
def REG_MULTI_SZ : Nat := 7

/-- Modelled from the spec: the `8-byte-integer` type tag (`REG_QWORD`). -/
def REG_QWORD : Nat := 11

/-- Modelled from the spec: expected-type bit for `REG_SZ` (`RRF_RT_REG_SZ`). -/
def RRF_RT_REG_SZ : Nat := 0x02

/-- Modelled from the spec: expected-type bit for `REG_BINARY` (`RRF_RT_REG_BINARY`). -/
def RRF_RT_REG_BINARY : Nat := 0x08

/-- Modelled from the spec: expected-type bit for `REG_DWORD` (`RRF_RT_REG_DWORD`). -/
def RRF_RT_REG_DWORD : Nat := 0x10

/-- Modelled from the spec: expected-type bit for `REG_MULTI_SZ` (`RRF_RT_REG_MULTI_SZ`). -/
def RRF_RT_REG_MULTI_SZ : Nat := 0x20

/-- Modelled from the spec: expected-type bit for `REG_QWORD` (`RRF_RT_REG_QWORD`). -/
def RRF_RT_REG_QWORD : Nat := 0x40

/-- Modelled from the spec: the right to read values (`KEY_QUERY_VALUE`). -/
def KEY_QUERY_VALUE : REGSAM := 0x1

/-- Modelled from the spec: the right to write values (`KEY_SET_VALUE`). -/
def KEY_SET_VALUE : REGSAM := 0x2

/-- Undefined behaviour the C++ code can run into, and fuel exhaustion of the
loop models. -/
inductive Fault where
  | readOutOfBounds
  | writeOutOfBounds
  | iteratorPastEnd
  | outOfFuel
  deriving DecidableEq, Repr

/-- What one call of `RegGetValueA` leaves behind: the returned status, the value
left in `*pcbData`, and the bytes the call stored at the start of `pvData`. -/
structure ReadReply where
  status : LSTATUS
  cbData : Nat
  data : List Byte
  deriving DecidableEq, Repr

/-- The signature of `RegOpenKeyExA (hKey, lpSubKey, ulOptions, samDesired, phkResult)`
over a store with state `σ`: the status and the handle stored in `*phkResult`. -/
abbrev OpenFn (σ : Type) := σ → HKEY → Str → Nat → REGSAM → (LSTATUS × HKEY) × σ

/-- The signature of `RegGetValueA (hkey, nullptr, lpValue, dwFlags, nullptr, pvData, pcbData)`
over a store with state `σ`.  `pvData` is `false` for a null pointer; `pcbData`
is the value of `*pcbData` on entry. -/
abbrev GetFn (σ : Type) := σ → HKEY → Str → Nat → Bool → Nat → ReadReply × σ

/-- The signature of `RegSetKeyValueA (hKey, nullptr, lpValueName, dwType, lpData, cbData)`
over a store with state `σ`. -/
abbrev SetFn (σ : Type) := σ → HKEY → Str → Nat → List Byte → Nat → LSTATUS × σ

/-- The buffer `buf` after a call stored `bytes` at its start.  The store writes
inside the buffer it was given only. -/
def storeInto (buf bytes : List Byte) : List Byte :=
  (bytes ++ buf.drop bytes.length).take buf.length

/-- The buffer after `memcpy (buf + pos, src, src.length)`; `none` when the copy
would leave the buffer. -/
def memcpy (buf : List Byte) (pos : Nat) (src : List Byte) : Option (List Byte) :=
  if pos + src.length ≤ buf.length then
    some (buf.take pos ++ src ++ buf.drop (pos + src.length))
  else none

/-- The implicit conversion of a `std::size_t` to `DWORD`, the 32-bit unsigned
type of the byte count `cbData` of `RegSetKeyValueA`. -/
def toDWORD (n : Nat) : Nat := n % 4294967296

/-- Number of bytes before the first NUL of `l`; `none` when `l` has no NUL
(the scan would leave the buffer). -/
def strlenAux : List Byte → Option Nat
  | [] => none
  | b :: rest => if b = 0 then some 0 else (strlenAux rest).map (· + 1)

/-- The call `strlen (data + ptr)`. -/
def strlen (data : List Byte) (ptr : Nat) : Option Nat :=
  strlenAux (data.drop ptr)

/-- The exception thrown by the constructor. -/
structure runtime_error where
  what : String
  deriving DecidableEq, Repr

deriving instance DecidableEq for Except

/-- The class `reg_helper<ACCESS_MASK>`: its two data members. -/
structure reg_helper where
  m_reg_key : Str
  m_key_handle : HKEY
  deriving DecidableEq, Repr

namespace reg_helper

variable {σ : Type}

/-- The constructor `reg_helper (HKEY parent_key, std::string_view reg_key)`. -/
def construct (ACCESS_MASK : REGSAM) (RegOpenKeyExA : OpenFn σ) (s : σ)
    (parent_key : HKEY) (reg_key : Str) : Except runtime_error reg_helper × σ :=
  let r := RegOpenKeyExA s parent_key reg_key 0 ACCESS_MASK
  let status := r.1.1
  if status ≠ ERROR_SUCCESS then
    (.error ⟨"Exception occurred while calling RegOpenKeyExA!"⟩, r.2)
  else
    (.ok ⟨reg_key, r.1.2⟩, r.2)

/-- The member `get_value<T>` for a fixed-size `T` with `sizeof (T) = sizeofT`.
`output` is the indeterminate initial content of the local `T output`. -/
def get_value (RegGetValueA : GetFn σ) (self : reg_helper) (s : σ) (key_name : Str)
    (sizeofT : Nat) (output : List Byte) : Option (List Byte) × σ :=
  let size := sizeofT
  let r := RegGetValueA s self.m_key_handle key_name
    (RRF_RT_REG_BINARY ||| RRF_RT_REG_DWORD ||| RRF_RT_REG_QWORD) true size
  if r.1.status ≠ ERROR_SUCCESS then
    (none, r.2)
  else
    (some (storeInto output r.1.data), r.2)

/-- The parse loop of `get_value<std::vector<std::string>>`:
`for (ptr = data; ptr < data + size - 1; ptr += strlen (ptr) + 1) output.push_back (ptr);`
Each emitted string is recorded with the cursor position it was read at. -/
def get_value_loop (data : List Byte) (size : Nat) :
    Nat → Nat → List (Nat × Str) → Except Fault (List (Nat × Str))
  | fuel, ptr, output =>
    if ptr < size - 1 then
      match fuel with
      | 0 => .error .outOfFuel
      | fuel + 1 =>
        match strlen data ptr with
        | none => .error .readOutOfBounds
        | some len =>
          get_value_loop data size fuel (ptr + (len + 1))
            (output ++ [(ptr, (data.drop ptr).take len)])
    else
      .ok output

/-- The member `get_value<std::vector<std::string>>`. -/
def get_value_vector_string (RegGetValueA : GetFn σ) (self : reg_helper) (s : σ)
    (key_name : Str) : Except Fault (Option (List Str)) × σ :=
  let size := 0
  let r1 := RegGetValueA s self.m_key_handle key_name RRF_RT_REG_MULTI_SZ false size
  if r1.1.status ≠ ERROR_SUCCESS then
    (.ok none, r1.2)
  else
    let size := r1.1.cbData
    let data := List.replicate size (0 : Byte)
    let r2 := RegGetValueA r1.2 self.m_key_handle key_name RRF_RT_REG_MULTI_SZ true size
    if r2.1.status ≠ ERROR_SUCCESS then
      (.ok none, r2.2)
    else
      let data := storeInto data r2.1.data
      let size := r2.1.cbData
      match get_value_loop data size size 0 [] with
      | .error e => (.error e, r2.2)
      | .ok output => (.ok (some (output.map Prod.snd)), r2.2)

/-- The member `get_value<std::string>`. -/
def get_value_string (RegGetValueA : GetFn σ) (self : reg_helper) (s : σ)
    (key_name : Str) : Except Fault (Option Str) × σ :=
  let size := 0
  let r1 := RegGetValueA s self.m_key_handle key_name RRF_RT_REG_SZ false size
  if r1.1.status ≠ ERROR_SUCCESS then
    (.ok none, r1.2)
  else
    let size := r1.1.cbData
    let data := List.replicate size (0 : Byte)
    let r2 := RegGetValueA r1.2 self.m_key_handle key_name RRF_RT_REG_SZ true size
    if r2.1.status ≠ ERROR_SUCCESS then
      (.ok none, r2.2)
    else
      let data := storeInto data r2.1.data
      let size := r2.1.cbData
      if size ≤ data.length then
        (.ok (some (data.take size)), r2.2)
      else
        (.error .readOutOfBounds, r2.2)

/-- The type tag `set_value<T>` chooses for `sizeof (T) = sizeofT`. -/
def set_value_type (sizeofT : Nat) : Nat :=
  if sizeofT = 4 then REG_DWORD
  else if sizeofT = 8 then REG_QWORD
  else REG_BINARY

/-- The member `set_value<T>` for a fixed-size `T`; `value` is the object
representation of the argument, `sizeof (T) = value.length`. -/
def set_value (RegSetKeyValueA : SetFn σ) (self : reg_helper) (s : σ) (key_name : Str)
    (value : List Byte) : Bool × σ :=
  let type := set_value_type value.length
  let r := RegSetKeyValueA s self.m_key_handle key_name type value value.length
  (decide (r.1 = ERROR_SUCCESS), r.2)

/-- The member `set_value (key_name, const std::string& str)`. -/
def set_value_string (RegSetKeyValueA : SetFn σ) (self : reg_helper) (s : σ)
    (key_name : Str) (str : Str) : Bool × σ :=
  let r := RegSetKeyValueA s self.m_key_handle key_name REG_SZ (str ++ [0])
    (toDWORD (str.length + 1))
  (decide (r.1 = ERROR_SUCCESS), r.2)

/-- The first loop of `set_value (key_name, const std::vector<std::string>& strs)`:
`for (const auto& str : strs) alloc_size += str.size () + 1;` -/
def set_value_alloc_size : List Str → Nat → Nat
  | [], alloc_size => alloc_size
  | str :: rest, alloc_size => set_value_alloc_size rest (alloc_size + (str.length + 1))

/-- The copy loop of `set_value (key_name, const std::vector<std::string>& strs)`:
`for (ptr = value; ptr < value + alloc_size - 1; ptr += it->size () + 1, it++)
   memcpy (ptr, it->c_str (), it->size () + 1);`
with `it` the index of the iterator in `strs`. -/
def set_value_loop (strs : List Str) (alloc_size : Nat) :
    Nat → Nat → Nat → List Byte → Except Fault (List Byte)
  | fuel, ptr, it, value =>
    if ptr < alloc_size - 1 then
      match fuel with
      | 0 => .error .outOfFuel
      | fuel + 1 =>
        match strs.get? it with
        | none => .error .iteratorPastEnd
        | some str =>
          match memcpy value ptr (str ++ [0]) with
          | none => .error .writeOutOfBounds
          | some value =>
            set_value_loop strs alloc_size fuel (ptr + (str.length + 1)) (it + 1) value
    else
      .ok value

/-- The buffer `set_value (key_name, strs)` builds, up to the call of the store. -/
def set_value_buffer (strs : List Str) : Except Fault (List Byte) :=
  let alloc_size := set_value_alloc_size strs 1
  let value := List.replicate alloc_size (0 : Byte)
  match set_value_loop strs alloc_size alloc_size 0 0 value with
  | .error e => .error e
  | .ok value =>
    match memcpy value (alloc_size - 1) [0] with
    | none => .error .writeOutOfBounds
    | some value => .ok value

/-- The member `set_value (key_name, const std::vector<std::string>& strs)`. -/
def set_value_vector_string (RegSetKeyValueA : SetFn σ) (self : reg_helper) (s : σ)
    (key_name : Str) (strs : List Str) : Except Fault (Bool × σ) :=
  let alloc_size := set_value_alloc_size strs 1
  match set_value_buffer strs with
  | .error e => .error e
  | .ok value =>
    let r := RegSetKeyValueA s self.m_key_handle key_name REG_MULTI_SZ value
      (toDWORD alloc_size)
    .ok (decide (r.1 = ERROR_SUCCESS), r.2)

end reg_helper

open reg_helper

/-- A stored value: its type tag and its bytes. -/
structure RegValue where
  type : Nat
  data : List Byte
  deriving DecidableEq, Repr

/-- Modelled from the spec: the external key-value store of §6 reduced to the
values under each open handle and the rights each handle was opened with. -/
structure Registry where
  rights : HKEY → REGSAM
  values : HKEY → Str → Option RegValue

/-- Modelled from the spec: whether the expected type mask `dwFlags` of a read
admits a value of type `type` (bit `RRF_RT_REG_x` admits `REG_x`). -/
def rrfAccepts (dwFlags type : Nat) : Bool :=
  if type = REG_SZ then dwFlags &&& RRF_RT_REG_SZ ≠ 0
  else if type = REG_BINARY then dwFlags &&& RRF_RT_REG_BINARY ≠ 0
  else if type = REG_DWORD then dwFlags &&& RRF_RT_REG_DWORD ≠ 0
  else if type = REG_MULTI_SZ then dwFlags &&& RRF_RT_REG_MULTI_SZ ≠ 0
  else if type = REG_QWORD then dwFlags &&& RRF_RT_REG_QWORD ≠ 0
  else false

/-- Modelled from the spec: `read (handle, key_name, expected_type_mask, buffer,
buffer_size)` of §6, with its query mode (no buffer: the required size is
returned) and its fill mode (the value is copied when it fits the buffer). -/
def Registry.RegGetValueA : GetFn Registry :=
  fun reg hkey lpValue dwFlags pvData pcbData =>
    if reg.rights hkey &&& KEY_QUERY_VALUE = 0 then
      (⟨ERROR_ACCESS_DENIED, pcbData, []⟩, reg)
    else
      match reg.values hkey lpValue with
      | none => (⟨ERROR_FILE_NOT_FOUND, pcbData, []⟩, reg)
      | some v =>
        if rrfAccepts dwFlags v.type = false then
          (⟨ERROR_UNSUPPORTED_TYPE, pcbData, []⟩, reg)
        else if pvData = false then
          (⟨ERROR_SUCCESS, v.data.length, []⟩, reg)
        else if pcbData < v.data.length then
          (⟨ERROR_MORE_DATA, v.data.length, []⟩, reg)
        else
          (⟨ERROR_SUCCESS, v.data.length, v.data⟩, reg)

/-- Modelled from the spec: `write (handle, key_name, type_tag, buffer,
buffer_size)` of §6: creates the value or overwrites it, whatever its type. -/
def Registry.RegSetKeyValueA : SetFn Registry :=
  fun reg hKey lpValueName dwType lpData cbData =>
    if reg.rights hKey &&& KEY_SET_VALUE = 0 then
      (ERROR_ACCESS_DENIED, reg)
    else
      (ERROR_SUCCESS,
        { reg with
          values := fun h name =>
            if h = hKey ∧ name = lpValueName then some ⟨dwType, lpData.take cbData⟩
            else reg.values h name })

/-- Modelled from the spec: a store that changes between calls, given as the
states successive reads observe; each read is answered by the first state, which
is then dropped. -/
def Registry.timelineGet : GetFn (List Registry) :=
  fun regs hkey lpValue dwFlags pvData pcbData =>
    match regs with
    | [] => (⟨ERROR_FILE_NOT_FOUND, pcbData, []⟩, [])
    | reg :: rest => ((reg.RegGetValueA hkey lpValue dwFlags pvData pcbData).1, rest)

/-- A store with no value, all rights granted on every handle. -/
def Registry.empty : Registry := ⟨fun _ => KEY_QUERY_VALUE ||| KEY_SET_VALUE, fun _ _ => none⟩

/-- One call of `RegSetKeyValueA` as a recording store sees it. -/
structure WriteCall where
  hKey : HKEY
  lpValueName : Str
  dwType : Nat
  lpData : List Byte
  cbData : Nat
  deriving DecidableEq, Repr

/-- A store that records every write it receives and answers `status`. -/
def recordWrites (status : LSTATUS) : SetFn (List WriteCall) :=
  fun log hKey lpValueName dwType lpData cbData =>
    (status, log ++ [⟨hKey, lpValueName, dwType, lpData, cbData⟩])

/-- A store whose open operation fails with `status`. -/
def failingOpen (status : LSTATUS) : OpenFn Unit :=
  fun s _ _ _ _ => ((status, 0), s)

/-- The layout the specification gives for a sequence of strings, without the
closing terminator of the sequence: each string followed by one NUL. -/
def joinTerminated : List Str → List Byte
  | [] => []
  | str :: rest => str ++ [0] ++ joinTerminated rest

/-- The store returns `buffer` and its size unchanged to a two-phase read of
`key_name` that starts in state `s`: the size query succeeds and reports
`buffer.length`, the fill that follows succeeds, reports `buffer.length` and
stores `buffer`. -/
def ReturnsUnchanged {σ : Type} (RegGetValueA : GetFn σ) (s : σ) (hkey : HKEY)
    (key_name : Str) (dwFlags : Nat) (buffer : List Byte) : Prop :=
  (RegGetValueA s hkey key_name dwFlags false 0).1.status = ERROR_SUCCESS
  ∧ (RegGetValueA s hkey key_name dwFlags false 0).1.cbData = buffer.length
  ∧ (RegGetValueA (RegGetValueA s hkey key_name dwFlags false 0).2 hkey key_name dwFlags true
      buffer.length).1 = ⟨ERROR_SUCCESS, buffer.length, buffer⟩

/-- The accessor used in the examples: handle 1. -/
def exampleHelper : reg_helper := ⟨[83, 111, 102, 116], 1⟩

/-- The key name used in the examples. -/
def exampleKey : Str := [107, 101, 121]

/-- The store reads back what was written through handle `hkey` in state `s`:
after a write that reports success, a read of the same value through the same
handle, with no call in between, whose type mask admits the written type and
whose buffer holds the written bytes, reports success, the written size and the
written bytes. -/
def ReadsBack {σ : Type} (RegSetKeyValueA : SetFn σ) (RegGetValueA : GetFn σ) (s : σ)
    (hkey : HKEY) : Prop :=
  ∀ (key_name : Str) (type : Nat) (data : List Byte) (dwFlags size : Nat),
    (RegSetKeyValueA s hkey key_name type data data.length).1 = ERROR_SUCCESS →
    rrfAccepts dwFlags type = true →
    data.length ≤ size →
    (RegGetValueA (RegSetKeyValueA s hkey key_name type data data.length).2 hkey key_name
      dwFlags true size).1 = ⟨ERROR_SUCCESS, data.length, data⟩

/-- A string of `2 ^ 32 - 2` bytes `a`: alone in a sequence it is serialised to
`2 ^ 32` bytes. -/
def bigString : Str := List.replicate 4294967294 97

/-- The string `hello`. -/
def hello : Str := [104, 101, 108, 108, 111]

/-- The string `hi`. -/
def hi : Str := [104, 105]

/-- The reference store after `hello` was written as text under `exampleKey`. -/
def helloStore : Registry :=
  (set_value_string Registry.RegSetKeyValueA exampleHelper Registry.empty exampleKey hello).2

/-- The reference store after `hi` was written as text under `exampleKey`. -/
def hiStore : Registry :=
  (set_value_string Registry.RegSetKeyValueA exampleHelper Registry.empty exampleKey hi).2

/-- The reference store after the two bytes `1, 2` were written under `exampleKey`. -/
def twoByteStore : Registry :=
  (set_value Registry.RegSetKeyValueA exampleHelper Registry.empty exampleKey [1, 2]).2

/-- The reference store after the four bytes `1, 2, 3, 4` were written under
`exampleKey`. -/
def fourByteStore : Registry :=
  (set_value Registry.RegSetKeyValueA exampleHelper Registry.empty exampleKey [1, 2, 3, 4]).2

variable {σ : Type}

/-! ## Serialisation of a sequence of strings -/

theorem joinTerminated_append (a b : List Str) :
    joinTerminated (a ++ b) = joinTerminated a ++ joinTerminated b := by
  induction a with
  | nil => rfl
  | cons str rest ih => simp [joinTerminated, ih]

theorem joinTerminated_length (strs : List Str) :
    (joinTerminated strs).length = (strs.map (fun str => str.length + 1)).sum := by
  induction strs with
  | nil => rfl
  | cons str rest ih => simp [joinTerminated, ih]; omega

theorem length_le_joinTerminated_length (strs : List Str) :
    strs.length ≤ (joinTerminated strs).length := by
  induction strs with
  | nil => simp
  | cons str rest ih => simp [joinTerminated]; omega

theorem set_value_alloc_size_eq (strs : List Str) (alloc_size : Nat) :
    set_value_alloc_size strs alloc_size = alloc_size + (joinTerminated strs).length := by
  induction strs generalizing alloc_size with
  | nil => simp [set_value_alloc_size, joinTerminated]
  | cons str rest ih => simp [set_value_alloc_size, joinTerminated, ih, Nat.add_assoc]; omega

theorem memcpy_append (front tail src : List Byte) (h : src.length ≤ tail.length) :
    memcpy (front ++ tail) front.length src = some (front ++ src ++ tail.drop src.length) := by
  unfold memcpy
  rw [if_pos (by simp [h])]
  simp [List.take_append_eq_append_take, List.drop_append_eq_append_drop]

/-- Loop invariant of the copy loop: with `done` already serialised and `todo`
left, the loop serialises `todo` after it and leaves the rest of the buffer
alone. -/
theorem set_value_loop_spec (todo : List Str) :
    ∀ (done : List Str) (tail : List Byte) (fuel alloc_size : Nat),
      todo.length ≤ fuel →
      tail.length = (joinTerminated todo).length + 1 →
      alloc_size = (joinTerminated done).length + (joinTerminated todo).length + 1 →
      set_value_loop (done ++ todo) alloc_size fuel (joinTerminated done).length done.length
          (joinTerminated done ++ tail)
        = .ok (joinTerminated done ++ joinTerminated todo
            ++ tail.drop (joinTerminated todo).length) := by
  induction todo with
  | nil =>
    intro done tail fuel alloc_size _ _ halloc
    unfold set_value_loop
    simp [joinTerminated] at halloc ⊢
    omega
  | cons str rest ih =>
    intro done tail fuel alloc_size hfuel htail halloc
    obtain ⟨fuel, rfl⟩ : ∃ f, fuel = f + 1 := ⟨fuel - 1, by simp at hfuel; omega⟩
    have hjoin : (joinTerminated (str :: rest)).length
        = str.length + 1 + (joinTerminated rest).length := by simp [joinTerminated]; omega
    unfold set_value_loop
    rw [if_pos (by omega)]
    have hget : (done ++ str :: rest).get? done.length = some str := by
      rw [List.get?_eq_getElem?, List.getElem?_append_right (Nat.le_refl _)]; simp
    have hcpy := memcpy_append (joinTerminated done) tail (str ++ [0]) (by simp; omega)
    simp only [hget, hcpy]
    have hdone : joinTerminated (done ++ [str]) = joinTerminated done ++ (str ++ [0]) := by
      rw [joinTerminated_append]; simp [joinTerminated]
    have key := ih (done ++ [str]) (tail.drop (str ++ [0]).length) fuel alloc_size
      (by simp at hfuel; omega) (by simp; omega) (by rw [hdone]; simp; omega)
    rw [hdone] at key
    simp only [List.append_assoc, List.singleton_append, List.length_append,
      List.length_singleton, List.length_cons, List.length_nil, Nat.zero_add,
      List.drop_drop] at key ⊢
    rw [key, hjoin]
    simp [joinTerminated]

/-- The buffer built by `set_value (key_name, strs)` is the strings, each with
its terminator, followed by the terminator of the sequence; neither loop faults. -/
theorem set_value_buffer_eq (strs : List Str) :
    set_value_buffer strs = .ok (joinTerminated strs ++ [0]) := by
  unfold set_value_buffer
  have hloop := set_value_loop_spec strs [] (List.replicate ((joinTerminated strs).length + 1) 0)
    (set_value_alloc_size strs 1) (set_value_alloc_size strs 1)
    (by rw [set_value_alloc_size_eq]; have := length_le_joinTerminated_length strs; omega)
    (by simp) (by rw [set_value_alloc_size_eq]; simp [joinTerminated]; omega)
  have hsize : set_value_alloc_size strs 1 = (joinTerminated strs).length + 1 := by
    rw [set_value_alloc_size_eq]; omega
  simp only [joinTerminated, List.nil_append, List.length_nil] at hloop
  rw [hsize] at hloop ⊢
  simp only [hloop]
  have hdrop : List.drop (joinTerminated strs).length
      (List.replicate ((joinTerminated strs).length + 1) (0 : Byte)) = [0] := by
    simp [List.drop_replicate]
  rw [hdrop]
  have := memcpy_append (joinTerminated strs) [0] [0] (by simp)
  simp at this ⊢
  simp [this]

/-! ## Parsing a buffer of terminated strings -/

theorem storeInto_of_length_le (buf bytes : List Byte) (h : bytes.length ≤ buf.length) :
    storeInto buf bytes = bytes ++ buf.drop bytes.length := by
  unfold storeInto
  apply List.take_of_length_le
  simp; omega

theorem storeInto_of_length_eq (buf bytes : List Byte) (h : bytes.length = buf.length) :
    storeInto buf bytes = bytes := by
  rw [storeInto_of_length_le buf bytes (by omega), h]; simp

/-- A scan that starts in front of a NUL finds its terminator at or before it. -/
theorem strlenAux_of_nul (l : List Byte) :
    ∀ i : Nat, l.get? i = some 0 → ∃ len, strlenAux l = some len ∧ len ≤ i := by
  induction l with
  | nil => intro i h; simp at h
  | cons b tl ih =>
    intro i h
    by_cases hb : b = 0
    · exact ⟨0, by simp [strlenAux, hb], Nat.zero_le _⟩
    · cases i with
      | zero => simp at h; exact absurd h hb
      | succ j =>
        obtain ⟨len, hlen, hle⟩ := ih j (by simpa using h)
        exact ⟨len + 1, by simp [strlenAux, hb, hlen], by omega⟩

/-- A scan that succeeds ends inside the buffer. -/
theorem strlenAux_lt_length (l : List Byte) :
    ∀ len : Nat, strlenAux l = some len → len < l.length := by
  induction l with
  | nil => intro len h; simp [strlenAux] at h
  | cons b tl ih =>
    intro len h
    by_cases hb : b = 0
    · simp [strlenAux, hb] at h; subst h; simp
    · simp only [strlenAux, hb, if_false] at h
      cases htl : strlenAux tl with
      | none => simp [htl] at h
      | some m =>
        simp [htl] at h; subst h
        have := ih m htl
        simp; omega

/-- In a buffer whose byte `n - 1` is a terminator, `strlen` from any position up
to `n - 1` ends at an index not beyond `n - 1`. -/
theorem strlen_of_terminated (data : List Byte) (n p : Nat)
    (hterm : data.get? (n - 1) = some 0) (hp : p ≤ n - 1) :
    ∃ len, strlen data p = some len ∧ p + len ≤ n - 1 := by
  have h : (data.drop p).get? (n - 1 - p) = some 0 := by
    rw [List.get?_eq_getElem?, List.getElem?_drop, ← List.get?_eq_getElem?]
    rw [show p + (n - 1 - p) = n - 1 by omega]; exact hterm
  obtain ⟨len, hlen, hle⟩ := strlenAux_of_nul (data.drop p) (n - 1 - p) h
  exact ⟨len, hlen, by omega⟩

/-- What the parse loop emits from cursor `ptr` on in a buffer of reported size
`n` whose byte `n - 1` is a terminator: the loop ends within `n - 1 - ptr`
iterations, every scan ends at an index not beyond `n - 1`, and the offsets
increase. -/
theorem get_value_loop_terminated (data : List Byte) (n : Nat)
    (hterm : data.get? (n - 1) = some 0) :
    ∀ (k ptr : Nat), n - 1 - ptr ≤ k →
      ∃ emitted : List (Nat × Str),
        (∀ (fuel : Nat) (output : List (Nat × Str)), n - 1 - ptr ≤ fuel →
          get_value_loop data n fuel ptr output = .ok (output ++ emitted))
        ∧ emitted.length ≤ n - 1 - ptr
        ∧ (∀ e ∈ emitted, ptr ≤ e.1 ∧ e.1 < n - 1 ∧ strlen data e.1 = some e.2.length
            ∧ e.1 + e.2.length ≤ n - 1 ∧ e.2 = (data.drop e.1).take e.2.length)
        ∧ (emitted.map Prod.fst).Pairwise (· < ·) := by
  intro k
  induction k with
  | zero =>
    intro ptr hk
    refine ⟨[], ?_, by simp, by simp, by simp⟩
    intro fuel output _
    unfold get_value_loop
    rw [if_neg (by omega)]; simp
  | succ k ih =>
    intro ptr hk
    by_cases hptr : ptr < n - 1
    · obtain ⟨len, hlen, hle⟩ := strlen_of_terminated data n ptr hterm (by omega)
      obtain ⟨emitted, hrun, hcount, hmem, hsorted⟩ := ih (ptr + (len + 1)) (by omega)
      have htake : ((data.drop ptr).take len).length = len := by
        have := strlenAux_lt_length (data.drop ptr) len hlen
        rw [List.length_take]; omega
      refine ⟨(ptr, (data.drop ptr).take len) :: emitted, ?_, ?_, ?_, ?_⟩
      · intro fuel output hfuel
        obtain ⟨fuel, rfl⟩ : ∃ f, fuel = f + 1 := ⟨fuel - 1, by omega⟩
        unfold get_value_loop
        rw [if_pos hptr]
        simp only [hlen]
        rw [hrun fuel _ (by omega)]
        simp
      · simp; omega
      · intro e he
        rcases List.mem_cons.mp he with rfl | he
        · exact ⟨Nat.le_refl _, hptr, by simp only [htake]; exact hlen,
            by simp only [htake]; exact hle, by simp only [htake]⟩
        · obtain ⟨h1, h2, h3, h4, h5⟩ := hmem e he
          exact ⟨by omega, h2, h3, h4, h5⟩
      · simp only [List.map_cons, List.pairwise_cons]
        refine ⟨?_, hsorted⟩
        intro a ha
        obtain ⟨e, he, rfl⟩ := List.mem_map.mp ha
        have := (hmem e he).1
        omega
    · refine ⟨[], ?_, by simp, by simp, by simp⟩
      intro fuel output _
      unfold get_value_loop
      rw [if_neg hptr]; simp

/-- The fuel `get_value<std::vector<std::string>>` gives its parse loop is never
exhausted, whatever the buffer: the cursor advances by at least one each turn. -/
theorem get_value_loop_fuel_suffices (data : List Byte) (size : Nat) :
    ∀ (k ptr fuel : Nat) (output : List (Nat × Str)), size - 1 - ptr ≤ k → k ≤ fuel →
      get_value_loop data size fuel ptr output ≠ .error .outOfFuel := by
  intro k
  induction k with
  | zero =>
    intro ptr fuel output hk _
    unfold get_value_loop
    rw [if_neg (by omega)]; simp
  | succ k ih =>
    intro ptr fuel output hk hfuel
    obtain ⟨fuel, rfl⟩ : ∃ f, fuel = f + 1 := ⟨fuel - 1, by omega⟩
    unfold get_value_loop
    split_ifs with hptr
    · cases hlen : strlen data ptr with
      | none => simp
      | some len => exact ih _ _ _ (by omega) (by omega)
    · simp

/-- Whatever the store returns unchanged to the two-phase read of
`get_value<std::string>` is what the getter returns, every byte of it. -/
theorem get_value_string_of_returnsUnchanged (RegGetValueA : GetFn σ) (self : reg_helper)
    (s : σ) (key_name : Str) (buffer : List Byte)
    (hstore : ReturnsUnchanged RegGetValueA s self.m_key_handle key_name RRF_RT_REG_SZ
      buffer) :
    (get_value_string RegGetValueA self s key_name).1 = .ok (some buffer) := by
  obtain ⟨h1, h2, h3⟩ := hstore
  unfold get_value_string
  simp only [h1, h2, h3, ne_eq, not_true_eq_false, if_false]
  rw [storeInto_of_length_eq _ _ (by simp)]
  simp

/-- A fixed-size read of `sizeofT` bytes from the reference store: a stored value
of an admitted type is absent when it is longer than `sizeofT`, and present
otherwise, the bytes past its length being those the local held before. -/
theorem get_value_of_stored (reg : Registry) (self : reg_helper) (key_name : Str)
    (v : RegValue) (sizeofT : Nat) (output : List Byte)
    (hrights : reg.rights self.m_key_handle &&& KEY_QUERY_VALUE ≠ 0)
    (hv : reg.values self.m_key_handle key_name = some v)
    (haccept : rrfAccepts (RRF_RT_REG_BINARY ||| RRF_RT_REG_DWORD ||| RRF_RT_REG_QWORD)
      v.type = true)
    (hout : output.length = sizeofT) :
    (get_value Registry.RegGetValueA self reg key_name sizeofT output).1
      = if sizeofT < v.data.length then none
        else some (v.data ++ output.drop v.data.length) := by
  by_cases h : sizeofT < v.data.length
  · simp [get_value, Registry.RegGetValueA, hrights, hv, haccept, h, ERROR_MORE_DATA,
      ERROR_SUCCESS]
  · simp [get_value, Registry.RegGetValueA, hrights, hv, haccept, h,
      storeInto_of_length_le output v.data (by omega)]

/-! ## The claims -/

/-- What `set_value (key_name, strs)` does, for every sequence: one write, tagged
`REG_MULTI_SZ`, of the serialisation of `strs`, with its size reduced to a
`DWORD` as byte count. -/
theorem set_value_vector_string_eq (RegSetKeyValueA : SetFn σ) (self : reg_helper) (s : σ)
    (key_name : Str) (strs : List Str) :
    set_value_vector_string RegSetKeyValueA self s key_name strs
      = .ok (decide ((RegSetKeyValueA s self.m_key_handle key_name REG_MULTI_SZ
              (joinTerminated strs ++ [0])
              (toDWORD ((strs.map (fun str => str.length + 1)).sum + 1))).1 = ERROR_SUCCESS),
          (RegSetKeyValueA s self.m_key_handle key_name REG_MULTI_SZ
              (joinTerminated strs ++ [0])
              (toDWORD ((strs.map (fun str => str.length + 1)).sum + 1))).2) := by
  have hsize : set_value_alloc_size strs 1
      = (strs.map (fun str => str.length + 1)).sum + 1 := by
    rw [set_value_alloc_size_eq, joinTerminated_length]; omega
  simp only [set_value_vector_string, set_value_buffer_eq, hsize]

theorem toDWORD_of_lt (n : Nat) (h : n < 4294967296) : toDWORD n = n :=
  Nat.mod_eq_of_lt h

theorem singleton_size (str : Str) :
    ([str].map (fun str => str.length + 1)).sum + 1 = str.length + 2 := by
  simp

theorem bigString_length : bigString.length = 4294967294 :=
  List.length_replicate _ _

/-- The serialisation of `[bigString]` has `2 ^ 32` bytes, and that count
reduced to a `DWORD` is 0. -/
theorem bigString_size :
    ([bigString].map (fun str => str.length + 1)).sum + 1 = 4294967296
    ∧ toDWORD (([bigString].map (fun str => str.length + 1)).sum + 1) = 0 := by
  rw [singleton_size, bigString_length]
  exact ⟨rfl, rfl⟩

/-- C6, amended. For every sequence of strings (any content, empty strings and
the empty sequence included) the serialisation of `set_value` completes without
a fault (no iterator dereferenced past the end of the sequence, no write outside
the allocated buffer) and the buffer built is `s_1 ++ [0] ++ ... ++ s_k ++ [0]
++ [0]`, of size `(sum of (len s_i + 1)) + 1`; for the empty sequence it is the
one terminator byte.  When that size is below `2 ^ 32`, the buffer is handed to
the store in exactly one write tagged `REG_MULTI_SZ` with that size as byte
count. -/
theorem multi_string_serialisation_layout (RegSetKeyValueA : SetFn σ) (self : reg_helper)
    (s : σ) (key_name : Str) (strs : List Str) (status : LSTATUS) :
    (set_value_buffer strs = .ok (joinTerminated strs ++ [0])
      ∧ (joinTerminated strs ++ [0]).length = (strs.map (fun str => str.length + 1)).sum + 1
      ∧ set_value_buffer [] = .ok [0])
    ∧ ((strs.map (fun str => str.length + 1)).sum + 1 < 4294967296 →
      set_value_vector_string RegSetKeyValueA self s key_name strs
        = .ok (decide ((RegSetKeyValueA s self.m_key_handle key_name REG_MULTI_SZ
              (joinTerminated strs ++ [0]) ((strs.map (fun str => str.length + 1)).sum + 1)).1
              = ERROR_SUCCESS),
            (RegSetKeyValueA s self.m_key_handle key_name REG_MULTI_SZ
              (joinTerminated strs ++ [0]) ((strs.map (fun str => str.length + 1)).sum + 1)).2)
      ∧ set_value_vector_string (recordWrites status) self [] key_name strs
        = .ok (decide (status = ERROR_SUCCESS),
            [⟨self.m_key_handle, key_name, REG_MULTI_SZ, joinTerminated strs ++ [0],
              (strs.map (fun str => str.length + 1)).sum + 1⟩])) := by
  refine ⟨⟨set_value_buffer_eq strs, ?_, set_value_buffer_eq []⟩, ?_⟩
  · simp [joinTerminated_length]
  · intro hfit
    constructor
    · rw [set_value_vector_string_eq, toDWORD_of_lt _ hfit]
    · rw [set_value_vector_string_eq, toDWORD_of_lt _ hfit]
      simp only [recordWrites, List.nil_append]

/-- Witness of C6, amended: the sequences `["a", "bb", "ccc"]` and `[]` written
to a recording store. -/
theorem multi_string_serialisation_layout_witness :
    set_value_vector_string (recordWrites ERROR_SUCCESS) exampleHelper [] exampleKey
        [[97], [98, 98], [99, 99, 99]]
      = .ok (true, [⟨1, exampleKey, REG_MULTI_SZ, [97, 0, 98, 98, 0, 99, 99, 99, 0, 0], 10⟩])
    ∧ set_value_vector_string (recordWrites ERROR_SUCCESS) exampleHelper [] exampleKey []
      = .ok (true, [⟨1, exampleKey, REG_MULTI_SZ, [0], 1⟩]) :=
  ⟨((multi_string_serialisation_layout (recordWrites ERROR_SUCCESS) exampleHelper []
      exampleKey [[97], [98, 98], [99, 99, 99]] ERROR_SUCCESS).2 (by decide)).2,
    ((multi_string_serialisation_layout (recordWrites ERROR_SUCCESS) exampleHelper []
      exampleKey [] ERROR_SUCCESS).2 (by decide)).2⟩

/-- C6 as stated fails: the sequence `[bigString]` is serialised to a buffer of
`2 ^ 32` bytes, and the byte count handed to the store with it is 0. -/
theorem multi_string_count_wraps :
    set_value_buffer [bigString] = .ok (joinTerminated [bigString] ++ [0])
    ∧ (joinTerminated [bigString] ++ [0]).length = 4294967296
    ∧ set_value_vector_string (recordWrites ERROR_SUCCESS) exampleHelper [] exampleKey
        [bigString]
      = .ok (true, [⟨1, exampleKey, REG_MULTI_SZ, joinTerminated [bigString] ++ [0], 0⟩]) := by
  refine ⟨set_value_buffer_eq _, ?_, ?_⟩
  · rw [List.length_append, joinTerminated_length, List.length_singleton]
    exact bigString_size.1
  · rw [set_value_vector_string_eq, bigString_size.2]
    rfl

/-- C7. For a value of `n` bytes `set_value<T>` issues exactly one store write:
its tag is `REG_DWORD` iff `n = 4`, `REG_QWORD` iff `n = 8` and `REG_BINARY` for
every other `n`, its payload is the `n` bytes of the value with byte count `n`,
and the boolean returned is true iff the write reports `ERROR_SUCCESS`. -/
theorem set_value_type_by_size (RegSetKeyValueA : SetFn σ) (self : reg_helper) (s : σ)
    (key_name : Str) (value : List Byte) (status : LSTATUS) :
    set_value RegSetKeyValueA self s key_name value
        = (decide ((RegSetKeyValueA s self.m_key_handle key_name
              (set_value_type value.length) value value.length).1 = ERROR_SUCCESS),
            (RegSetKeyValueA s self.m_key_handle key_name
              (set_value_type value.length) value value.length).2)
    ∧ set_value (recordWrites status) self [] key_name value
        = (decide (status = ERROR_SUCCESS),
            [⟨self.m_key_handle, key_name, set_value_type value.length, value, value.length⟩])
    ∧ ((set_value RegSetKeyValueA self s key_name value).1 = true
        ↔ (RegSetKeyValueA s self.m_key_handle key_name
              (set_value_type value.length) value value.length).1 = ERROR_SUCCESS)
    ∧ (set_value_type value.length = REG_DWORD ↔ value.length = 4)
    ∧ (set_value_type value.length = REG_QWORD ↔ value.length = 8)
    ∧ (set_value_type value.length = REG_BINARY ↔ (value.length ≠ 4 ∧ value.length ≠ 8)) := by
  refine ⟨rfl, rfl, by simp [set_value], ?_, ?_, ?_⟩ <;>
  · unfold set_value_type REG_DWORD REG_QWORD REG_BINARY
    split_ifs <;> omega

/-- C10. On a buffer of reported size `n ≥ 1` whose byte `n - 1` is a
terminator the parse loop of `get_value<std::vector<std::string>>` returns,
without a fault, after at most `n - 1` iterations (`n - 1` units of fuel or more
give the same result); every emitted string was read at a cursor `p < n - 1` by
a scan whose terminator lies at an index `≤ n - 1`; the cursors strictly
increase in emission order; and a scan from any `p < n - 1` ends at an index
`≤ n - 1`. -/
theorem multi_string_parser_total (data : List Byte) (n : Nat) (hn : 1 ≤ n)
    (hterm : data.get? (n - 1) = some 0) :
    (∃ output : List (Nat × Str),
      (∀ fuel, n - 1 ≤ fuel → get_value_loop data n fuel 0 [] = .ok output)
      ∧ output.length ≤ n - 1
      ∧ (output.map Prod.fst).Pairwise (· < ·)
      ∧ (∀ e ∈ output, e.1 < n - 1 ∧ strlen data e.1 = some e.2.length
          ∧ e.1 + e.2.length ≤ n - 1 ∧ e.2 = (data.drop e.1).take e.2.length))
    ∧ (∀ p, p < n - 1 → ∃ len, strlen data p = some len ∧ p + len ≤ n - 1) := by
  obtain ⟨emitted, hrun, hcount, hmem, hsorted⟩ :=
    get_value_loop_terminated data n hterm (n - 1) 0 (by omega)
  refine ⟨⟨emitted, ?_, by omega, hsorted, ?_⟩, ?_⟩
  · intro fuel hfuel
    simpa using hrun fuel [] (by omega)
  · intro e he
    obtain ⟨_, h2, h3, h4, h5⟩ := hmem e he
    exact ⟨h2, h3, h4, h5⟩
  · intro p hp
    exact strlen_of_terminated data n p hterm (by omega)

/-- Witness of C10: the buffer `a\0b\0\0` of reported size 5. -/
theorem multi_string_parser_total_witness :
    (∃ output : List (Nat × Str),
      (∀ fuel, 5 - 1 ≤ fuel → get_value_loop [97, 0, 98, 0, 0] 5 fuel 0 [] = .ok output)
      ∧ output.length ≤ 5 - 1
      ∧ (output.map Prod.fst).Pairwise (· < ·)
      ∧ (∀ e ∈ output, e.1 < 5 - 1 ∧ strlen [97, 0, 98, 0, 0] e.1 = some e.2.length
          ∧ e.1 + e.2.length ≤ 5 - 1
          ∧ e.2 = (List.drop e.1 [97, 0, 98, 0, 0]).take e.2.length))
    ∧ (∀ p, p < 5 - 1 → ∃ len, strlen [97, 0, 98, 0, 0] p = some len ∧ p + len ≤ 5 - 1) :=
  multi_string_parser_total [97, 0, 98, 0, 0] 5 (by decide) (by decide)

/-- The reference store reads back what was written through a handle that may
query values. -/
theorem Registry.readsBack (reg : Registry) (hkey : HKEY)
    (hrights : reg.rights hkey &&& KEY_QUERY_VALUE ≠ 0) :
    ReadsBack Registry.RegSetKeyValueA Registry.RegGetValueA reg hkey := by
  intro key_name type data dwFlags size hset haccept hfit
  unfold Registry.RegSetKeyValueA at hset ⊢
  by_cases hw : reg.rights hkey &&& KEY_SET_VALUE = 0
  · simp [hw, ERROR_ACCESS_DENIED, ERROR_SUCCESS] at hset
  · simp only [hw, if_false]
    unfold Registry.RegGetValueA
    simp only [hrights, if_false, and_self, if_true, List.take_length, haccept]
    simp [Nat.not_lt.mpr hfit]

/-- C3. On a store that reads back what was written: for every value `v` of a
fixed-size type of `n` bytes (any `n`, not only 4 and 8), if `set_value<T>
(key, v)` succeeds, then `get_value<T> (key)` on the resulting store, with no
call in between, is present and its `n` bytes are those of `v`, whatever the
initial content of the local it is read into; the type tag `set_value` chooses
for `n` is accepted by the type mask of `get_value`. -/
theorem fixed_size_round_trip (RegSetKeyValueA : SetFn σ) (RegGetValueA : GetFn σ)
    (self : reg_helper) (s : σ) (key_name : Str) (value output : List Byte)
    (hsize : output.length = value.length)
    (hset : (set_value RegSetKeyValueA self s key_name value).1 = true)
    (hstore : ReadsBack RegSetKeyValueA RegGetValueA s self.m_key_handle) :
    (get_value RegGetValueA self (set_value RegSetKeyValueA self s key_name value).2 key_name
        value.length output).1 = some value
    ∧ rrfAccepts (RRF_RT_REG_BINARY ||| RRF_RT_REG_DWORD ||| RRF_RT_REG_QWORD)
        (set_value_type value.length) = true := by
  have haccept : rrfAccepts (RRF_RT_REG_BINARY ||| RRF_RT_REG_DWORD ||| RRF_RT_REG_QWORD)
      (set_value_type value.length) = true := by
    unfold set_value_type
    split_ifs <;> decide
  refine ⟨?_, haccept⟩
  have hwrite : (RegSetKeyValueA s self.m_key_handle key_name (set_value_type value.length)
      value value.length).1 = ERROR_SUCCESS := by
    simpa [set_value] using hset
  have hread := hstore key_name (set_value_type value.length) value
    (RRF_RT_REG_BINARY ||| RRF_RT_REG_DWORD ||| RRF_RT_REG_QWORD) value.length hwrite haccept
    (Nat.le_refl _)
  simp only [get_value, set_value, hread, ne_eq, not_true_eq_false, if_false]
  rw [storeInto_of_length_eq _ _ hsize.symm]

/-- Witness of C3: a 3-byte value, a 4-byte value and an 8-byte value written to
the reference store and read back. -/
theorem fixed_size_round_trip_witness :
    ((get_value Registry.RegGetValueA exampleHelper
        (set_value Registry.RegSetKeyValueA exampleHelper Registry.empty exampleKey
          [1, 2, 3]).2 exampleKey 3 [9, 9, 9]).1 = some [1, 2, 3]
      ∧ rrfAccepts (RRF_RT_REG_BINARY ||| RRF_RT_REG_DWORD ||| RRF_RT_REG_QWORD)
          (set_value_type 3) = true)
    ∧ ((get_value Registry.RegGetValueA exampleHelper fourByteStore exampleKey 4
        [9, 9, 9, 9]).1 = some [1, 2, 3, 4]
      ∧ rrfAccepts (RRF_RT_REG_BINARY ||| RRF_RT_REG_DWORD ||| RRF_RT_REG_QWORD)
          (set_value_type 4) = true)
    ∧ ((get_value Registry.RegGetValueA exampleHelper
        (set_value Registry.RegSetKeyValueA exampleHelper Registry.empty exampleKey
          [1, 2, 3, 4, 5, 6, 7, 8]).2 exampleKey 8 [9, 9, 9, 9, 9, 9, 9, 9]).1
          = some [1, 2, 3, 4, 5, 6, 7, 8]
      ∧ rrfAccepts (RRF_RT_REG_BINARY ||| RRF_RT_REG_DWORD ||| RRF_RT_REG_QWORD)
          (set_value_type 8) = true) :=
  ⟨fixed_size_round_trip Registry.RegSetKeyValueA Registry.RegGetValueA exampleHelper
      Registry.empty exampleKey [1, 2, 3] [9, 9, 9] rfl rfl
      (Registry.readsBack Registry.empty 1 (by decide)),
    fixed_size_round_trip Registry.RegSetKeyValueA Registry.RegGetValueA exampleHelper
      Registry.empty exampleKey [1, 2, 3, 4] [9, 9, 9, 9] rfl rfl
      (Registry.readsBack Registry.empty 1 (by decide)),
    fixed_size_round_trip Registry.RegSetKeyValueA Registry.RegGetValueA exampleHelper
      Registry.empty exampleKey [1, 2, 3, 4, 5, 6, 7, 8] [9, 9, 9, 9, 9, 9, 9, 9] rfl rfl
      (Registry.readsBack Registry.empty 1 (by decide))⟩

/-- C2 at the failing input. `hello` (5 bytes) is written as text to the
reference store, which then reports to `get_value<std::string>` the 6 bytes and
the byte count 6 that were written; the string returned has length 6: `hello`
followed by the terminator byte, and is not `hello`. -/
theorem single_string_round_trip_keeps_terminator :
    (set_value_string Registry.RegSetKeyValueA exampleHelper Registry.empty exampleKey hello).1
        = true
    ∧ ReturnsUnchanged Registry.RegGetValueA helloStore 1 exampleKey RRF_RT_REG_SZ
        [104, 101, 108, 108, 111, 0]
    ∧ (get_value_string Registry.RegGetValueA exampleHelper helloStore exampleKey).1
        = .ok (some [104, 101, 108, 108, 111, 0])
    ∧ (get_value_string Registry.RegGetValueA exampleHelper helloStore exampleKey).1
        ≠ .ok (some hello) := by
  refine ⟨rfl, ⟨rfl, rfl, rfl⟩, rfl, ?_⟩
  decide

/-- C4. For each of the three getters and every key name: when the store read
reports a status other than `ERROR_SUCCESS` (the single read of the fixed-size
getter; the size query, or the fill after a successful size query, of the
two-phase getters) the getter returns absent, without a fault; in particular a
read of a value that was never written to the reference store returns absent. -/
theorem read_failure_is_absent (RegGetValueA : GetFn σ) (self : reg_helper) (s : σ)
    (key_name : Str) :
    (∀ (sizeofT : Nat) (output : List Byte),
      (RegGetValueA s self.m_key_handle key_name
        (RRF_RT_REG_BINARY ||| RRF_RT_REG_DWORD ||| RRF_RT_REG_QWORD) true sizeofT).1.status
          ≠ ERROR_SUCCESS →
      (get_value RegGetValueA self s key_name sizeofT output).1 = none)
    ∧ ((RegGetValueA s self.m_key_handle key_name RRF_RT_REG_SZ false 0).1.status
          ≠ ERROR_SUCCESS →
      (get_value_string RegGetValueA self s key_name).1 = .ok none)
    ∧ ((RegGetValueA (RegGetValueA s self.m_key_handle key_name RRF_RT_REG_SZ false 0).2
          self.m_key_handle key_name RRF_RT_REG_SZ true
          (RegGetValueA s self.m_key_handle key_name RRF_RT_REG_SZ false 0).1.cbData).1.status
          ≠ ERROR_SUCCESS →
      (get_value_string RegGetValueA self s key_name).1 = .ok none)
    ∧ ((RegGetValueA s self.m_key_handle key_name RRF_RT_REG_MULTI_SZ false 0).1.status
          ≠ ERROR_SUCCESS →
      (get_value_vector_string RegGetValueA self s key_name).1 = .ok none)
    ∧ ((RegGetValueA (RegGetValueA s self.m_key_handle key_name RRF_RT_REG_MULTI_SZ false 0).2
          self.m_key_handle key_name RRF_RT_REG_MULTI_SZ true
          (RegGetValueA s self.m_key_handle key_name RRF_RT_REG_MULTI_SZ false 0).1.cbData
          ).1.status ≠ ERROR_SUCCESS →
      (get_value_vector_string RegGetValueA self s key_name).1 = .ok none)
    ∧ (∀ (reg : Registry) (sizeofT : Nat) (output : List Byte),
      reg.values self.m_key_handle key_name = none →
      (get_value Registry.RegGetValueA self reg key_name sizeofT output).1 = none
      ∧ (get_value_string Registry.RegGetValueA self reg key_name).1 = .ok none
      ∧ (get_value_vector_string Registry.RegGetValueA self reg key_name).1 = .ok none) := by
  refine ⟨?_, ?_, ?_, ?_, ?_, ?_⟩
  · intro sizeofT output h
    simp [get_value, h]
  · intro h
    simp [get_value_string, h]
  · intro h
    unfold get_value_string
    by_cases h1 : (RegGetValueA s self.m_key_handle key_name RRF_RT_REG_SZ false 0).1.status
        = ERROR_SUCCESS
    · simp [h1, h]
    · simp [h1]
  · intro h
    simp [get_value_vector_string, h]
  · intro h
    unfold get_value_vector_string
    by_cases h1 : (RegGetValueA s self.m_key_handle key_name RRF_RT_REG_MULTI_SZ false
        0).1.status = ERROR_SUCCESS
    · simp [h1, h]
    · simp [h1]
  · intro reg sizeofT output hnone
    have hfail : ∀ dwFlags pvData pcbData,
        (Registry.RegGetValueA reg self.m_key_handle key_name dwFlags pvData pcbData).1.status
          ≠ ERROR_SUCCESS := by
      intro dwFlags pvData pcbData
      unfold Registry.RegGetValueA
      split_ifs <;> simp [hnone, ERROR_ACCESS_DENIED, ERROR_FILE_NOT_FOUND, ERROR_SUCCESS]
    refine ⟨?_, ?_, ?_⟩
    · simp [get_value, hfail]
    · simp [get_value_string, hfail]
    · simp [get_value_vector_string, hfail]

/-- Witness of C4: the three getters on the empty reference store. -/
theorem read_failure_is_absent_witness :
    (get_value Registry.RegGetValueA exampleHelper Registry.empty exampleKey 4
        [9, 9, 9, 9]).1 = none
    ∧ (get_value_string Registry.RegGetValueA exampleHelper Registry.empty exampleKey).1
        = .ok none
    ∧ (get_value_vector_string Registry.RegGetValueA exampleHelper Registry.empty
        exampleKey).1 = .ok none :=
  ⟨(read_failure_is_absent Registry.RegGetValueA exampleHelper Registry.empty exampleKey).1
      4 [9, 9, 9, 9] (by decide),
    (read_failure_is_absent Registry.RegGetValueA exampleHelper Registry.empty exampleKey).2.1
      (by decide),
    (read_failure_is_absent Registry.RegGetValueA exampleHelper Registry.empty
      exampleKey).2.2.2.1 (by decide)⟩

/-- C5, amended. When the open operation of the store returns a status other
than `ERROR_SUCCESS`, the constructor produces no accessor and throws a
`runtime_error` whose message is the fixed text below, whatever the status. -/
theorem construct_failure_is_fixed_error (ACCESS_MASK : REGSAM) (RegOpenKeyExA : OpenFn σ)
    (s : σ) (parent_key : HKEY) (reg_key : Str)
    (hfail : (RegOpenKeyExA s parent_key reg_key 0 ACCESS_MASK).1.1 ≠ ERROR_SUCCESS) :
    (construct ACCESS_MASK RegOpenKeyExA s parent_key reg_key).1
      = .error ⟨"Exception occurred while calling RegOpenKeyExA!"⟩ := by
  simp [construct, hfail]

/-- Witness of C5, amended: an open operation that fails with
`ERROR_FILE_NOT_FOUND`. -/
theorem construct_failure_is_fixed_error_witness :
    (construct (KEY_QUERY_VALUE ||| KEY_SET_VALUE) (failingOpen ERROR_FILE_NOT_FOUND) () 0
        exampleKey).1
      = .error ⟨"Exception occurred while calling RegOpenKeyExA!"⟩ :=
  construct_failure_is_fixed_error (KEY_QUERY_VALUE ||| KEY_SET_VALUE)
    (failingOpen ERROR_FILE_NOT_FOUND) () 0 exampleKey (by decide)

/-- C5 as stated fails: an open operation failing with `ERROR_FILE_NOT_FOUND` and
one failing with `ERROR_ACCESS_DENIED` make the constructor throw the same
error, so no function of the error recovers the status. -/
theorem construct_failure_hides_status :
    (construct (KEY_QUERY_VALUE ||| KEY_SET_VALUE) (failingOpen ERROR_FILE_NOT_FOUND) () 0
        exampleKey).1
      = (construct (KEY_QUERY_VALUE ||| KEY_SET_VALUE) (failingOpen ERROR_ACCESS_DENIED) () 0
        exampleKey).1
    ∧ ERROR_FILE_NOT_FOUND ≠ ERROR_ACCESS_DENIED
    ∧ ¬ ∃ recover : Except runtime_error reg_helper → LSTATUS,
        recover (construct (KEY_QUERY_VALUE ||| KEY_SET_VALUE)
            (failingOpen ERROR_FILE_NOT_FOUND) () 0 exampleKey).1 = ERROR_FILE_NOT_FOUND
        ∧ recover (construct (KEY_QUERY_VALUE ||| KEY_SET_VALUE)
            (failingOpen ERROR_ACCESS_DENIED) () 0 exampleKey).1 = ERROR_ACCESS_DENIED := by
  have hsame : (construct (KEY_QUERY_VALUE ||| KEY_SET_VALUE)
        (failingOpen ERROR_FILE_NOT_FOUND) () 0 exampleKey).1
      = (construct (KEY_QUERY_VALUE ||| KEY_SET_VALUE) (failingOpen ERROR_ACCESS_DENIED) () 0
        exampleKey).1 := rfl
  refine ⟨hsame, by decide, ?_⟩
  rintro ⟨recover, h2, h5⟩
  rw [hsame, h5] at h2
  exact absurd h2 (by decide)

/-- C8 at the failing input. A value of 2 bytes is stored as binary; the read
into a 4-byte `T` succeeds and `get_value<T>` returns a present `T`: its first
two bytes are the stored ones, its last two the indeterminate initial content of
the local.  (A stored value of 4 bytes read into a 2-byte `T` is absent.) -/
theorem fixed_read_of_shorter_value_is_present :
    twoByteStore.values 1 exampleKey = some ⟨REG_BINARY, [1, 2]⟩
    ∧ (get_value Registry.RegGetValueA exampleHelper twoByteStore exampleKey 4
        [170, 187, 204, 221]).1 = some [1, 2, 204, 221]
    ∧ fourByteStore.values 1 exampleKey = some ⟨REG_DWORD, [1, 2, 3, 4]⟩
    ∧ (get_value Registry.RegGetValueA exampleHelper fourByteStore exampleKey 2
        [170, 187]).1 = none := by
  refine ⟨rfl, rfl, rfl, rfl⟩

theorem storeInto_length (buf bytes : List Byte) (h : bytes.length ≤ buf.length) :
    (storeInto buf bytes).length = buf.length := by
  rw [storeInto_of_length_le buf bytes h]; simp; omega

theorem storeInto_take (buf bytes : List Byte) (h : bytes.length ≤ buf.length) :
    (storeInto buf bytes).take bytes.length = bytes := by
  rw [storeInto_of_length_le buf bytes h]; simp

/-- C9, amended. `get_value<std::string>` with the size query answered by the
reference store in state `S1` and the fill by the reference store in state `S2`,
the value being text in both: when the value is larger in `S2` than in `S1` the
call returns absent; otherwise (it shrank or kept its size) the call returns
present, the complete value of `S2`: its length and its bytes both come from
`S2`, and only bytes the fill wrote are read. -/
theorem string_size_change_between_phases (S1 S2 : Registry) (self : reg_helper)
    (key_name : Str) (v1 v2 : RegValue)
    (hr1 : S1.rights self.m_key_handle &&& KEY_QUERY_VALUE ≠ 0)
    (hr2 : S2.rights self.m_key_handle &&& KEY_QUERY_VALUE ≠ 0)
    (h1 : S1.values self.m_key_handle key_name = some v1)
    (h2 : S2.values self.m_key_handle key_name = some v2)
    (ht1 : v1.type = REG_SZ) (ht2 : v2.type = REG_SZ) :
    (v1.data.length < v2.data.length →
      (get_value_string Registry.timelineGet self [S1, S2] key_name).1 = .ok none)
    ∧ (v2.data.length ≤ v1.data.length →
      (get_value_string Registry.timelineGet self [S1, S2] key_name).1
        = .ok (some v2.data)) := by
  have haccept : rrfAccepts RRF_RT_REG_SZ REG_SZ = true := by decide
  have hq : Registry.timelineGet [S1, S2] self.m_key_handle key_name RRF_RT_REG_SZ false 0
      = (⟨ERROR_SUCCESS, v1.data.length, []⟩, [S2]) := by
    simp [Registry.timelineGet, Registry.RegGetValueA, hr1, h1, ht1, haccept]
  constructor
  · intro hgrow
    have hf : (Registry.timelineGet [S2] self.m_key_handle key_name RRF_RT_REG_SZ true
        v1.data.length).1 = ⟨ERROR_MORE_DATA, v2.data.length, []⟩ := by
      simp [Registry.timelineGet, Registry.RegGetValueA, hr2, h2, ht2, haccept, hgrow]
    simp [get_value_string, hq, hf, ERROR_MORE_DATA, ERROR_SUCCESS]
  · intro hshrink
    have hf : (Registry.timelineGet [S2] self.m_key_handle key_name RRF_RT_REG_SZ true
        v1.data.length).1 = ⟨ERROR_SUCCESS, v2.data.length, v2.data⟩ := by
      simp [Registry.timelineGet, Registry.RegGetValueA, hr2, h2, ht2, haccept,
        Nat.not_lt.mpr hshrink]
    have hl : v2.data.length ≤ (List.replicate v1.data.length (0 : Byte)).length := by
      simpa using hshrink
    simp only [get_value_string, hq, hf, ne_eq, not_true_eq_false, if_false]
    rw [if_pos (by rw [storeInto_length _ _ hl]; exact hl), storeInto_take _ _ hl]

/-- Witness of C9, amended: the text value `hi` replaced by `hello` between the
two phases (it grew: absent), and `hello` replaced by `hi` (it shrank: the
three bytes of `hi` with its terminator). -/
theorem string_size_change_between_phases_witness :
    (get_value_string Registry.timelineGet exampleHelper [hiStore, helloStore]
        exampleKey).1 = .ok none
    ∧ (get_value_string Registry.timelineGet exampleHelper [helloStore, hiStore]
        exampleKey).1 = .ok (some (hi ++ [0])) :=
  ⟨(string_size_change_between_phases hiStore helloStore exampleHelper exampleKey
      ⟨REG_SZ, hi ++ [0]⟩ ⟨REG_SZ, hello ++ [0]⟩ (by decide) (by decide) (by decide)
      (by decide) rfl rfl).1 (by decide),
    (string_size_change_between_phases helloStore hiStore exampleHelper exampleKey
      ⟨REG_SZ, hello ++ [0]⟩ ⟨REG_SZ, hi ++ [0]⟩ (by decide) (by decide) (by decide)
      (by decide) rfl rfl).2 (by decide)⟩

/-- C9 as stated fails: the text value under the key has 6 bytes when its size
is queried and 3 bytes when the buffer is filled, and `get_value<std::string>`
returns a present string, not absent. -/
theorem string_shrink_between_phases_is_present :
    helloStore.values 1 exampleKey = some ⟨REG_SZ, [104, 101, 108, 108, 111, 0]⟩
    ∧ hiStore.values 1 exampleKey = some ⟨REG_SZ, [104, 105, 0]⟩
    ∧ (get_value_string Registry.timelineGet exampleHelper [helloStore, hiStore]
        exampleKey).1 = .ok (some [104, 105, 0])
    ∧ (get_value_string Registry.timelineGet exampleHelper [helloStore, hiStore]
        exampleKey).1 ≠ .ok none := by
  refine ⟨rfl, rfl, rfl, ?_⟩
  decide

end RegHelper
